import Mathlib

/-!
Verification of the noctool traceroute core (main-process services).

This file gives a shallow embedding, in Lean 4, of the hop-enrichment and
continuous-session logic of the repository:

* `HopProcessor` (`src/main/services/ContinuousTracerouteManager.js`, second
  unit: `analyzeSlowHop`, `shouldSkipHop`, `getHopPriority`,
  `updateHopHistory`, `addRecentPing`, `addTimeoutPing`, `pingHopWithRetry`);
* the probe batch and the skip/limit partition of `TracerouteService.trace`
  (`src/main/services/TracerouteService.js`);
* session registration, ticks and stop of `ContinuousTracerouteManager`;
* `calculateTrend` of `TracerouteStatistics`.

Conventions of the embedding:

* JavaScript numbers are modelled as `Rat` (`ℚ`); a nullable number is
  `Option ℚ`.  JavaScript truthiness of a nullable number (`null` and `0`
  are falsy) is `qTruthy`.
* Wall-clock reads (`Date.now()`) are passed in as explicit `now : Nat`
  parameters; fresh identifiers are passed in as parameters.
* Asynchronous primitives (the ping probe, the executor) are modelled by
  quantifying over their outcome, which is handed to the embedded code as
  an explicit value.
* Purely diagnostic string fields of the source (`reason`, `behavior`,
  `recommendations`, console logging) are omitted: no control flow of the
  modelled functions depends on them.
-/

namespace Noctool

/-- JavaScript truthiness of a nullable number: `null` and `0` are falsy
(`NaN` is not representable in `ℚ` and never arises in the modelled paths). -/
def qTruthy : Option ℚ → Bool
  | none => false
  | some x => x ≠ 0

/-- JavaScript `x || d` for a nullable number (`null` and `0` fall back to `d`). -/
def jsOrQ (o : Option ℚ) (d : ℚ) : ℚ :=
  match o with
  | some x => if x = 0 then d else x
  | none => d

/-- JavaScript `x || d` for a nullable natural number (`null` and `0` fall back). -/
def jsOrN (o : Option Nat) (d : Nat) : Nat :=
  match o with
  | some n => if n = 0 then d else n
  | none => d

/-- Association-list lookup with decidable key equality; models exact-key
lookup on a JavaScript `Map` kept in insertion order. -/
def assocLookup {α β : Type} [DecidableEq α] : List (α × β) → α → Option β
  | [], _ => none
  | kv :: rest, k => if kv.1 = k then some kv.2 else assocLookup rest k

/-- JavaScript `x && parseFloat(x) > 0` on a nullable packet-loss number:
the value is truthy and positive. -/
def packetLossPositive : Option ℚ → Bool
  | some q => q ≠ 0 ∧ 0 < q
  | none => false

/-- One entry of a hop's own `pingHistory`, as pushed by
`HopProcessor.addRecentPing` and `HopProcessor.addTimeoutPing`. -/
structure PingEntry where
  pingNumber : Nat
  timestamp : Nat
  latency : Option ℚ
  isReachable : Bool
  timeout : ℚ
  responseTime : Option ℚ
  isTimeout : Bool
  isLongTimeout : Bool
  isSlowPing : Bool
deriving Repr, DecidableEq

/-- An enriched hop record (`hopInfo` built by `HopProcessor.processHop`,
together with the fields written later by `TracerouteService.trace`).
`hasPingResults` models `pingResults !== null`. -/
structure Hop where
  hop : Nat
  ip : Option String
  hostname : Option String := none
  times : List ℚ := []
  avgLatency : Option ℚ := none
  packetLoss : Option ℚ := none
  pingCount : Option Nat := none
  successfulPings : Option Nat := none
  isReachable : Bool := false
  hasPingResults : Bool := false
  pingHistory : List PingEntry := []
  timestamp : Nat := 0
deriving Repr, DecidableEq

/-- The two boolean outputs of `HopProcessor.analyzeSlowHop` (the diagnostic
strings of the source are omitted; nothing modelled depends on them). -/
structure SlowHopAnalysis where
  isSlow : Bool
  shouldSkip : Bool
deriving Repr, DecidableEq

/-- `HopProcessor.analyzeSlowHop`.  Mirrors the source exactly: the latency
band checks run first (latency over 100 or over 50 recommend a skip, over 20
is slow but kept), then the ping-history degradation check (mean of the last
three recorded latencies above 1.5 times the current latency recommends a
skip), then the packet-loss check (any positive loss recommends a skip); the
whole analysis is skipped when `avgLatency` is falsy. -/
def analyzeSlowHop (hop : Hop) : SlowHopAnalysis :=
  if qTruthy hop.avgLatency then
    let pingLatency := hop.avgLatency.getD 0
    let s1 : Bool × Bool :=
      if pingLatency > 100 then (true, true)
      else if pingLatency > 50 then (true, true)
      else if pingLatency > 20 then (true, false)
      else (false, false)
    let s2 : Bool × Bool :=
      if hop.pingHistory.length > 0 then
        let recentPings := hop.pingHistory.drop (hop.pingHistory.length - 3)
        let avgRecentLatency :=
          (recentPings.map (fun p => p.latency.getD 0)).sum / (recentPings.length : ℚ)
        if avgRecentLatency > pingLatency * (3 / 2) then (true, true) else s1
      else s1
    let s3 : Bool × Bool :=
      if packetLossPositive hop.packetLoss then (true, true) else s2
    if s3.1 then { isSlow := true, shouldSkip := s3.2 }
    else { isSlow := false, shouldSkip := false }
  else { isSlow := false, shouldSkip := false }

/-- The configuration fields consulted by the modelled paths of
`TracerouteService.trace` and `HopProcessor.shouldSkipHop`
(after `TracerouteConfig.validateConfig`). -/
structure TraceConfig where
  pingHops : Bool := true
  skipSlowHops : Bool := false
  slowHopThreshold : Option ℚ := none
  skipPacketLoss : Bool := false
  maxHopsToProcess : Option Nat := none
deriving Repr, DecidableEq

/-- `HopProcessor.shouldSkipHop`: skip when `analyzeSlowHop` recommends it,
or when `skipSlowHops` is set and the (truthy) latency exceeds
`slowHopThreshold || 50`, or when `skipPacketLoss` is set and the (truthy)
packet loss is positive. -/
def shouldSkipHop (hop : Hop) (config : TraceConfig) : Bool :=
  if (analyzeSlowHop hop).shouldSkip then true
  else if config.skipSlowHops ∧ qTruthy hop.avgLatency ∧
      hop.avgLatency.getD 0 > jsOrQ config.slowHopThreshold 50 then true
  else if config.skipPacketLoss ∧ packetLossPositive hop.packetLoss then true
  else false

/-- `HopProcessor.getHopPriority`.  `pingLatency` is `hop.avgLatency || 0`;
the band checks run before the skip-recommendation check, so the 999 demotion
is only reachable when the latency is at least 50. -/
def getHopPriority (hop : Hop) : Nat :=
  let slowHopAnalysis := analyzeSlowHop hop
  let pingLatency := hop.avgLatency.getD 0
  if pingLatency < 5 then 1
  else if pingLatency < 10 then 2
  else if pingLatency < 20 then 3
  else if pingLatency < 50 then 4
  else if slowHopAnalysis.shouldSkip then 999
  else 5

/-- The four trend labels returned by `TracerouteStatistics.calculateTrend`. -/
inductive Trend where
  | increasing
  | decreasing
  | stable
  | insufficientData
deriving Repr, DecidableEq

/-- `TracerouteStatistics.calculateTrend`: fewer than 3 samples is
insufficient data; otherwise compare the mean of the first half
(`slice(0, floor(n/2))`) with the mean of the second half (`slice(floor(n/2))`)
and classify the percentage change against a plus-or-minus 5 band.
(The source also computes an unused `recent` slice, omitted here.) -/
def calculateTrend (data : List ℚ) : Trend :=
  if data.length < 3 then .insufficientData
  else
    let firstHalf := data.take (data.length / 2)
    let secondHalf := data.drop (data.length / 2)
    let firstAvg := firstHalf.sum / (firstHalf.length : ℚ)
    let secondAvg := secondHalf.sum / (secondHalf.length : ℚ)
    let change := ((secondAvg - firstAvg) / firstAvg) * 100
    if change > 5 then .increasing
    else if change < -5 then .decreasing
    else .stable

/-- Result of the external ping probe (`ping.promise.probe`), restricted to
the fields the modelled code reads. -/
structure PingResult where
  alive : Bool
  time : Option ℚ
  error : Option String := none
deriving Repr, DecidableEq

/-- Outcome of the race inside `HopProcessor.pingHopWithRetry` between the
probe promise and the timeout promise. -/
inductive RaceOutcome where
  | probeResolved (r : PingResult)
  | timeoutFired
  | probeRejected (msg : String)
deriving Repr, DecidableEq

/-- `HopProcessor.pingHopWithRetry`, as a function of the race outcome.  The
whole body sits in a try/catch whose catch returns a plain result, so the
returned promise is modelled as `Except String PingResult` and the catch as
the `.ok` wrapping of the error result; the timeout promise rejects with the
message "Ping timeout". -/
def pingHopWithRetry (race : RaceOutcome) : Except String PingResult :=
  match race with
  | .probeResolved r => .ok r
  | .timeoutFired => .ok { alive := false, time := none, error := some "Ping timeout" }
  | .probeRejected msg => .ok { alive := false, time := none, error := some msg }

/-- `HopProcessor.addRecentPing`: push one entry built from a probe result
(latency `time || null`, timeout flags) and evict the oldest entry once the
history exceeds 20. -/
def addRecentPing (hop : Hop) (pingResult : PingResult) (timeout : ℚ)
    (pingNumber : Option Nat) (now : Nat) : Hop :=
  let isTimeout : Bool := !pingResult.alive || pingResult.time.isNone
  let isLongTimeout : Bool := isTimeout && decide (timeout ≥ 1000)
  let isSlowPing : Bool :=
    pingResult.alive && qTruthy pingResult.time && decide (pingResult.time.getD 0 > 100)
  let pingEntry : PingEntry :=
    { pingNumber := jsOrN pingNumber (jsOrN hop.pingCount 1),
      timestamp := now,
      latency := if qTruthy pingResult.time then pingResult.time else none,
      isReachable := pingResult.alive,
      timeout := timeout,
      responseTime := if qTruthy pingResult.time then pingResult.time else none,
      isTimeout := isTimeout,
      isLongTimeout := isLongTimeout,
      isSlowPing := isSlowPing }
  let hop := { hop with pingHistory := hop.pingHistory ++ [pingEntry] }
  if hop.pingHistory.length > 20 then { hop with pingHistory := hop.pingHistory.tail }
  else hop

/-- `HopProcessor.addTimeoutPing`: push one synthetic timeout entry and evict
the oldest entry once the history exceeds 20. -/
def addTimeoutPing (hop : Hop) (timeout : ℚ) (pingNumber : Option Nat) (now : Nat) : Hop :=
  let isLongTimeout : Bool := decide (timeout ≥ 1000)
  let timeoutEntry : PingEntry :=
    { pingNumber := jsOrN pingNumber (jsOrN hop.pingCount 1),
      timestamp := now,
      latency := none,
      isReachable := false,
      timeout := timeout,
      responseTime := none,
      isTimeout := true,
      isLongTimeout := isLongTimeout,
      isSlowPing := false }
  let hop := { hop with pingHistory := hop.pingHistory ++ [timeoutEntry] }
  if hop.pingHistory.length > 20 then { hop with pingHistory := hop.pingHistory.tail }
  else hop

/-- Outcome of the per-hop async task in the probe batch of
`TracerouteService.trace`: either `pingHopWithRetry` settled with a result
(it never rejects, see `pingHopWithRetry`), or some exception was thrown
inside the task and its catch block ran. -/
inductive ProbeOutcome where
  | settled (r : PingResult)
  | thrown (msg : String)
deriving Repr, DecidableEq

/-- Whether a probe outcome is a failure for its hop: the probe reported the
hop dead (a timeout or error absorbed by `pingHopWithRetry` reports
`alive: false`), or the task threw. -/
def ProbeOutcome.failing : ProbeOutcome → Bool
  | .settled r => !r.alive
  | .thrown _ => true

/-- The per-hop body of the probe batch in `TracerouteService.trace`
(the map over `finalHopsToPing`): on a settled probe, fold the result into
the hop (latency `alive && time ? time : null`, reachability, 0/100 packet
loss, counters) and push a history entry via `addRecentPing` with the fixed
1000ms timeout; on a thrown task, the catch marks the hop unreachable and
pushes a timeout entry via `addTimeoutPing`.  The purely diagnostic
`latencyAnalysis`/`networkBehavior` fields are omitted. -/
def applyProbeOutcome (hop : Hop) (o : ProbeOutcome) (now : Nat) : Hop :=
  match o with
  | .settled pingResult =>
    let avgLatency :=
      if pingResult.alive && qTruthy pingResult.time then pingResult.time else none
    let hop := { hop with
      hasPingResults := true,
      avgLatency := avgLatency,
      isReachable := pingResult.alive,
      packetLoss := some (if pingResult.alive then 0 else 100),
      pingCount := some 1,
      successfulPings := some (if pingResult.alive then 1 else 0) }
    addRecentPing hop pingResult 1000 (some 1) now
  | .thrown _ =>
    let hop := { hop with
      isReachable := false,
      avgLatency := none,
      pingCount := some 0,
      successfulPings := some 0 }
    addTimeoutPing hop 1000 (some 1) now

/-- The probe batch of `TracerouteService.trace`: one task per surviving hop,
all awaited together with `Promise.allSettled`, so the batch result is the
list of per-hop results, each a function of that hop and its own probe
outcome only. -/
def pingBatch (items : List (Hop × ProbeOutcome)) (now : Nat) : List Hop :=
  items.map fun item => applyProbeOutcome item.1 item.2 now

/-- One observation of a hop handed to `HopProcessor.updateHopHistory` in
continuous mode (the fields of the processed hop that the function reads). -/
structure Observation where
  hop : Nat
  ip : Option String
  runNumber : Option Nat
  timestamp : Nat
  times : List ℚ
  avgLatency : Option ℚ
  isReachable : Bool
  pingCount : Option Nat
deriving Repr, DecidableEq

/-- The hop key computed by `HopProcessor.processHop`, the string
`hop + "_" + (ip || "unknown")`, modelled as the pair (the hop index carries
no underscore, so the pair and the string are in bijection). -/
def Observation.hopKey (o : Observation) : Nat × String :=
  (o.hop, o.ip.getD "unknown")

/-- One run-history entry pushed by `HopProcessor.updateHopHistory`. -/
structure HistRunEntry where
  runNumber : Option Nat
  timestamp : Nat
  times : List ℚ
  avgLatency : Option ℚ
  isReachable : Bool
deriving Repr, DecidableEq

/-- One ping-history entry pushed by `HopProcessor.updateHopHistory`
(pushed only when the observation's `avgLatency` is a truthy number). -/
structure HistPingEntry where
  pingNumber : Nat
  timestamp : Nat
  latency : ℚ
  isReachable : Bool
deriving Repr, DecidableEq

/-- The run-history entry of an observation. -/
def Observation.runEntry (o : Observation) : HistRunEntry :=
  { runNumber := o.runNumber, timestamp := o.timestamp, times := o.times,
    avgLatency := o.avgLatency, isReachable := o.isReachable }

/-- The ping-history entry of an observation (`pingNumber: pingCount || 1`). -/
def Observation.pingEntry (o : Observation) : HistPingEntry :=
  { pingNumber := jsOrN o.pingCount 1, timestamp := o.timestamp,
    latency := o.avgLatency.getD 0, isReachable := o.isReachable }

/-- The per-hop record stored in a session's `allHops` map: a spread of the
first observation plus the two bounded histories. -/
structure StoredHop where
  base : Observation
  history : List HistRunEntry
  pingHistory : List HistPingEntry
deriving Repr, DecidableEq

/-- A session's `allHops` map (JavaScript `Map`, insertion-ordered). -/
abbrev HopMap := List ((Nat × String) × StoredHop)

/-- The push-then-evict core of `HopProcessor.updateHopHistory` on the stored
record: append the run entry, append the ping entry when the observation's
latency is truthy, then drop the oldest ping entry past 20 and the oldest run
entry past 10. -/
def pushHistories (stored : StoredHop) (hopData : Observation) : StoredHop :=
  let stored := { stored with history := stored.history ++ [hopData.runEntry] }
  let stored :=
    if qTruthy hopData.avgLatency then
      { stored with pingHistory := stored.pingHistory ++ [hopData.pingEntry] }
    else stored
  let stored :=
    if stored.pingHistory.length > 20 then
      { stored with pingHistory := stored.pingHistory.tail }
    else stored
  if stored.history.length > 10 then { stored with history := stored.history.tail }
  else stored

/-- `HopProcessor.updateHopHistory`: create the record for a new hop key
(spread of the observation with empty histories, appended in insertion
order), then push the observation into the keyed record.  The source also
returns the stored record; the map alone carries the state. -/
def updateHopHistory (hopData : Observation) (allHops : HopMap) : HopMap :=
  let hopKey := hopData.hopKey
  let allHops :=
    if (assocLookup allHops hopKey).isNone then
      allHops ++ [(hopKey, { base := hopData, history := [], pingHistory := [] })]
    else allHops
  allHops.map fun kv =>
    if kv.1 = hopKey then (kv.1, pushHistories kv.2 hopData) else kv

/-- A sequence of observations applied to a session's hop map in order
(one call of `updateHopHistory` per observation). -/
def applyObservations (allHops : HopMap) (obss : List Observation) : HopMap :=
  obss.foldl (fun m o => updateHopHistory o m) allHops

/-- The sliding window kept by the bounded histories: the last `w` elements
of a list (all of it when shorter). -/
def window (w : Nat) (l : List α) : List α :=
  l.drop (l.length - w)

/-- One analyzed hop of `TracerouteService.trace`: the hop together with its
`shouldSkipHop` verdict and `getHopPriority` rank. -/
structure AnalyzedHop where
  hop : Hop
  shouldSkip : Bool
  priority : Nat
deriving Repr, DecidableEq

/-- The analysis pass of `TracerouteService.trace` over the valid hops. -/
def analyzeValidHops (validHops : List Hop) (config : TraceConfig) : List AnalyzedHop :=
  validHops.map fun h =>
    { hop := h, shouldSkip := shouldSkipHop h config, priority := getHopPriority h }

/-- Ascending priority order on analyzed hops (the JavaScript comparator
`a.priority - b.priority`). -/
def priorityLE (a b : AnalyzedHop) : Prop := a.priority ≤ b.priority

instance : DecidableRel priorityLE := fun a b => Nat.decLe a.priority b.priority

instance : IsTotal AnalyzedHop priorityLE := ⟨fun a b => Nat.le_total a.priority b.priority⟩

instance : IsTrans AnalyzedHop priorityLE := ⟨fun _ _ _ => Nat.le_trans⟩

/-- The three classes produced by the filtering step of
`TracerouteService.trace`. -/
structure HopPartition where
  finalHopsToPing : List AnalyzedHop
  skippedHops : List AnalyzedHop
  limitedHops : List AnalyzedHop
deriving Repr, DecidableEq

/-- The skip/limit partition of `TracerouteService.trace` (the `complete`
branch with `pingHops` set): analyze every valid hop, drop the
skip-recommended ones, and when a truthy `maxHopsToProcess` is exceeded by
the keep-eligible hops, stable-sort those by ascending priority and keep
only the best `maxHopsToProcess`, classifying the rest as limited.
JavaScript `Array.prototype.sort` is stable, modelled by the stable
`List.insertionSort`. -/
def partitionHopsForPing (validHops : List Hop) (config : TraceConfig) : HopPartition :=
  let hopAnalysis := analyzeValidHops validHops config
  let hopsToPing := hopAnalysis.filter fun item => !item.shouldSkip
  let skippedHops := hopAnalysis.filter fun item => item.shouldSkip
  match config.maxHopsToProcess with
  | some m =>
    if m ≠ 0 ∧ hopsToPing.length > m then
      let sortedHops := List.insertionSort priorityLE hopsToPing
      { finalHopsToPing := sortedHops.take m, skippedHops := skippedHops,
        limitedHops := sortedHops.drop m }
    else
      { finalHopsToPing := hopsToPing, skippedHops := skippedHops, limitedHops := [] }
  | none =>
    { finalHopsToPing := hopsToPing, skippedHops := skippedHops, limitedHops := [] }

/-- Raw hop data handed to the update callback of the executor: either data
that `HopProcessor.processHop` parses (an object, or a JSON string that
parses), or a string on which `JSON.parse` throws. -/
inductive RawHopData where
  | parsed (hop : Nat) (ip : Option String) (rtt1 : Option ℚ)
  | malformedJson (s : String)
deriving Repr, DecidableEq

/-- One update delivered by `TracerouteExecutor.execute` to the callback of
`TracerouteService.trace`. -/
inductive ExecUpdate where
  | hopUpdate (raw : RawHopData)
  | complete (ipAddress : Option String) (pid : Option Nat)
deriving Repr, DecidableEq

/-- How the promise returned by `TracerouteService.trace` settles. -/
inductive TraceOutcome where
  | resolved (success : Bool) (error : Option String)
  | rejected (msg : String)
  | pending
deriving Repr, DecidableEq

/-- The update callback of `TracerouteService.trace` run over the delivered
updates in order, returning the first settlement of the trace promise it
produces, if any.  A parsed hop is enriched and pushed; a malformed hop makes
`processHop` throw, and the callback's catch rejects the promise when the run
is not yet completed; the first `complete` update resolves it with a success
result; updates after the first settlement are ignored by the
`isCompleted` guard. -/
def processUpdates : List ExecUpdate → Option TraceOutcome
  | [] => none
  | .hopUpdate (.malformedJson s) :: _ => some (.rejected s)
  | .hopUpdate (.parsed ..) :: rest => processUpdates rest
  | .complete _ _ :: _ => some (.resolved true none)

/-- How the promise returned by `TracerouteExecutor.execute` settles after
the updates are delivered.  The executor resolves `{success: true}` when the
process closes with code 0 or with hops collected (having first emitted the
`complete` update); it resolves `{success: false, error}` for every
discovery failure — nonzero exit with zero hops, the tracer error event, the
operation timeout, and the missing-target early return; it rejects only when
`tracer.trace(target)` throws synchronously. -/
inductive ExecFinish where
  | resolvedOk
  | resolvedFail (msg : String)
  | rejected (msg : String)
deriving Repr, DecidableEq

/-- `TracerouteService.trace` as a function of the outcome of config
validation plus target resolution, the updates delivered by the executor,
and how the executor promise settles afterwards.  The outer try/catch turns
a validation failure into a structured failure result.  Past that point the
only settlement paths of the promise `trace` returns are the update
callback (the first `complete` update resolves it, a processing error
rejects it) and the `.catch` on the executor promise, which fires only when
the executor promise rejects: an executor RESOLUTION — in particular a
discovery failure resolved as `{success: false, error}` — settles nothing,
so without a `complete` update the promise stays pending forever. -/
def traceModel (validation : Except String Unit) (events : List ExecUpdate)
    (finish : ExecFinish) : TraceOutcome :=
  match validation with
  | .error msg => .resolved false (some msg)
  | .ok _ =>
    match processUpdates events with
    | some outcome => outcome
    | none =>
      match finish with
      | .rejected msg => .resolved false (some msg)
      | .resolvedOk => .pending
      | .resolvedFail _ => .pending

/-- The closure state of one continuous session's `runTraceroute` loop in
`ContinuousTracerouteManager.startContinuousSession`: the `isRunning` and
`runCount` variables captured by the closures, plus whether a discovery run
of the underlying executor is currently in flight for this session. -/
structure LoopState where
  isRunning : Bool
  runCount : Nat
  discoveryInFlight : Bool
deriving Repr, DecidableEq

/-- The per-session record stored in `this.activeSessions`.  `isRunning` and
`runCount` hold the values of the closure variables at registration time:
they are primitives copied into the object literal, and no later code writes
these fields. -/
structure SessionEntry where
  target : String
  isRunning : Bool
  runCount : Nat
  startTime : Nat
deriving Repr, DecidableEq

/-- The state of a `ContinuousTracerouteManager`: the session registry
(`this.activeSessions`) and the closure state of every session loop ever
started (a stopped session's loop state survives the registry entry, like
the closures do). -/
structure ManagerState where
  registry : List (String × SessionEntry)
  loops : List (String × LoopState)
deriving Repr, DecidableEq

/-- `ContinuousTracerouteManager.startContinuousSession` (registration part):
store the session record with the current values `isRunning = true`,
`runCount = 0`, and create the loop closure state.  The fresh session id and
`Date.now()` are passed in. -/
def startContinuousSession (st : ManagerState) (sid : String) (target : String)
    (now : Nat) : ManagerState :=
  { registry := st.registry ++
      [(sid, { target := target, isRunning := true, runCount := 0, startTime := now })],
    loops := st.loops ++
      [(sid, { isRunning := true, runCount := 0, discoveryInFlight := false })] }

/-- The result object returned by `stopContinuousSession`. -/
structure StopResult where
  success : Bool
  message : String
deriving Repr, DecidableEq

/-- The stored `session.stop` closure: set the closure's `isRunning` to false
(and delete the registry entry, done by the caller below).  It touches
nothing else; in particular it does not reach the executor or any discovery
process handle. -/
def sessionStopClosure (loops : List (String × LoopState)) (sid : String) :
    List (String × LoopState) :=
  loops.map fun kv => if kv.1 = sid then (kv.1, { kv.2 with isRunning := false }) else kv

/-- `ContinuousTracerouteManager.stopContinuousSession`: when the id is
registered, run the stored `stop` closure and delete the registry entry
(twice, the second delete is a no-op), reporting success; when it is not,
delete the (absent) entry and still report success. -/
def stopContinuousSession (st : ManagerState) (sid : String) :
    ManagerState × StopResult :=
  match assocLookup st.registry sid with
  | some _ =>
    ({ registry := (st.registry.filter fun kv => kv.1 ≠ sid),
       loops := sessionStopClosure st.loops sid },
     { success := true, message := "Continuous traceroute stopped" })
  | none =>
    ({ st with registry := st.registry.filter fun kv => kv.1 ≠ sid },
     { success := true, message := "Session already stopped or not found" })

/-- Outcome of one tick's discovery-plus-enrichment run (the awaited
`tracerouteExecutor.execute` pipeline): it either completed or threw. -/
inductive RunOutcome where
  | ok
  | failed (msg : String)
deriving Repr, DecidableEq

/-- The event passed to `onComplete` at the end of a tick. -/
inductive CompleteEvent where
  | runComplete (runNumber : Nat)
  | runError (runNumber : Nat) (error : String)
deriving Repr, DecidableEq

/-- One tick of the `runTraceroute` loop for session `sid`, as a function of
the run's outcome.  `stopDuringRun` says whether `stop` flipped the closure's
`isRunning` flag while the run was in flight (the flag is read again after
the run).  Returns the new manager state, the `onComplete` event (with the
incremented closure run counter), and whether the next tick was scheduled.
The registry entry is never touched by a tick. -/
def runTick (st : ManagerState) (sid : String) (outcome : RunOutcome)
    (stopDuringRun : Bool) : ManagerState × Option CompleteEvent × Bool :=
  match assocLookup st.loops sid with
  | none => (st, none, false)
  | some loop =>
    if loop.isRunning then
      let rc := loop.runCount + 1
      let event :=
        match outcome with
        | .ok => CompleteEvent.runComplete rc
        | .failed msg => CompleteEvent.runError rc msg
      let isRunningAfter := loop.isRunning && !stopDuringRun
      let loopAfter := { loop with runCount := rc, isRunning := isRunningAfter }
      ({ st with loops := st.loops.map fun kv =>
          if kv.1 = sid then (kv.1, loopAfter) else kv },
       some event, isRunningAfter)
    else (st, none, false)

/-- A row of `ContinuousTracerouteManager.getActiveSessions`. -/
structure ActiveSessionInfo where
  sessionId : String
  target : String
  runCount : Nat
  startTime : Nat
  duration : Nat
  isRunning : Bool
deriving Repr, DecidableEq

/-- `ContinuousTracerouteManager.getActiveSessions`: report every registry
entry's stored fields. -/
def getActiveSessions (st : ManagerState) (now : Nat) : List ActiveSessionInfo :=
  st.registry.map fun kv =>
    { sessionId := kv.1, target := kv.2.target, runCount := kv.2.runCount,
      startTime := kv.2.startTime, duration := now - kv.2.startTime,
      isRunning := kv.2.isRunning }

/-- A sequence of completed ticks for one session (each scheduled tick runs
to completion before the next is scheduled, with no concurrent stop). -/
def runTicks (st : ManagerState) (sid : String) (outcomes : List RunOutcome) :
    ManagerState :=
  outcomes.foldl (fun s o => (runTick s sid o false).1) st

/-- The run-history step of `updateHopHistory` in isolation: push the run
entry and evict past 10. -/
def historyStep (h : List HistRunEntry) (o : Observation) : List HistRunEntry :=
  let h := h ++ [o.runEntry]
  if h.length > 10 then h.tail else h

/-- The ping-history step of `updateHopHistory` in isolation: push the ping
entry when the latency is truthy and evict past 20. -/
def pingHistStep (h : List HistPingEntry) (o : Observation) : List HistPingEntry :=
  let h := if qTruthy o.avgLatency then h ++ [o.pingEntry] else h
  if h.length > 20 then h.tail else h

/-- The ping-history entries a list of observations contributes: one entry
per observation with a truthy latency. -/
def pingEntriesOf (obss : List Observation) : List HistPingEntry :=
  (obss.filter fun o => qTruthy o.avgLatency).map Observation.pingEntry

/-- Whether an executor update is a hop update whose raw data makes
`JSON.parse` throw. -/
def ExecUpdate.isMalformed : ExecUpdate → Bool
  | .hopUpdate (.malformedJson _) => true
  | _ => false

/-- Whether an executor update is the completion update. -/
def ExecUpdate.isComplete : ExecUpdate → Bool
  | .complete _ _ => true
  | _ => false

/-- Example hop with a given index and probe latency, otherwise fresh. -/
def exHop (i : Nat) (lat : ℚ) : Hop :=
  { hop := i, ip := some "192.0.2.1", avgLatency := some lat }

/-- Example config of the claimed skip scenario: `skipSlowHops` with
threshold 50 and the default hop limit 15. -/
def skipCfg : TraceConfig :=
  { skipSlowHops := true, slowHopThreshold := some 50, maxHopsToProcess := some 15 }

/-- Example config of the claimed limit scenario: threshold 50 and
`maxHopsToProcess = 1`. -/
def limitCfg : TraceConfig :=
  { skipSlowHops := true, slowHopThreshold := some 50, maxHopsToProcess := some 1 }

/-- A fast hop (4ms) with total packet loss: `analyzeSlowHop` recommends the
skip through the packet-loss check while the latency sits in the under-5ms
band. -/
def fastLossyHop : Hop :=
  { hop := 2, ip := some "10.0.0.2", avgLatency := some 4, packetLoss := some 100 }

/-- A hop in the over-50ms region with a skip recommendation. -/
def slowSkippedHop : Hop :=
  { hop := 7, ip := some "10.0.0.7", avgLatency := some 200 }

/-- A registered session used by the stop counterexample. -/
def c7Entry : SessionEntry :=
  { target := "example.com", isRunning := true, runCount := 0, startTime := 0 }

/-- Loop state of that session with a discovery run in flight. -/
def c7Loop : LoopState :=
  { isRunning := true, runCount := 3, discoveryInFlight := true }

/-- Manager state with the session registered and its discovery in flight. -/
def c7State : ManagerState :=
  { registry := [("s1", c7Entry)], loops := [("s1", c7Loop)] }

/-- Example observation of hop 3 used by the history witness. -/
def obsA : Observation :=
  { hop := 3, ip := some "10.0.0.3", runNumber := some 1, timestamp := 100,
    times := [7], avgLatency := some 5, isReachable := true, pingCount := some 1 }

/-- A later observation of the same hop with no usable latency. -/
def obsB : Observation :=
  { hop := 3, ip := some "10.0.0.3", runNumber := some 2, timestamp := 200,
    times := [], avgLatency := none, isReachable := false, pingCount := some 2 }

/-! ### General lemmas about the embedding -/

theorem window_length {α : Type} (w : Nat) (l : List α) :
    (window w l).length = min l.length w := by
  simp only [window, List.length_drop]
  omega

theorem window_of_le {α : Type} {w : Nat} {l : List α} (h : l.length ≤ w) :
    window w l = l := by
  simp only [window]
  have : l.length - w = 0 := by omega
  simp [this]

theorem tail_append_singleton_of_ne_nil {α : Type} {l : List α} (e : α) (h : l ≠ []) :
    (l ++ [e]).tail = l.tail ++ [e] := by
  cases l with
  | nil => exact absurd rfl h
  | cons a as => rfl

theorem window_push {α : Type} (w : Nat) (hw : 0 < w) (l : List α) (e : α) :
    (if (window w l ++ [e]).length > w then (window w l ++ [e]).tail
     else window w l ++ [e])
      = window w (l ++ [e]) := by
  by_cases hlen : l.length < w
  · rw [if_neg]
    · rw [window_of_le (le_of_lt hlen), window_of_le]
      simp only [List.length_append, List.length_cons, List.length_nil]
      omega
    · simp only [List.length_append, window_length, List.length_cons, List.length_nil]
      omega
  · push_neg at hlen
    rw [if_pos]
    · have hne : window w l ≠ [] := by
        intro hnil
        have := window_length w l
        rw [hnil] at this
        simp only [List.length_nil] at this
        omega
      rw [tail_append_singleton_of_ne_nil e hne]
      simp only [window, List.tail_drop]
      rw [List.drop_append_of_le_length (by simp; omega)]
      congr 2
      simp only [List.length_append, List.length_cons, List.length_nil]
      omega
    · simp only [List.length_append, window_length, List.length_cons, List.length_nil]
      omega

theorem assocLookup_filter_ne {β : Type} (l : List (String × β)) (sid : String) :
    assocLookup (l.filter fun kv => kv.1 ≠ sid) sid = none := by
  induction l with
  | nil => rfl
  | cons kv rest ih =>
    simp only [ne_eq, decide_not, List.filter_cons] at ih ⊢
    by_cases h : kv.1 = sid
    · simpa [h] using ih
    · simpa [h, assocLookup] using ih

theorem assocLookup_map_update_const {β : Type} (l : List (String × β)) (sid : String)
    (c : β) :
    assocLookup (l.map fun kv => if kv.1 = sid then (kv.1, c) else kv) sid
      = (assocLookup l sid).map (fun _ => c) := by
  induction l with
  | nil => rfl
  | cons kv rest ih =>
    by_cases hk : kv.1 = sid
    · simp [List.map_cons, if_pos hk, assocLookup, hk]
    · simp [List.map_cons, if_neg hk, assocLookup, hk, ih]

theorem assocLookup_mem {α β : Type} [DecidableEq α] (l : List (α × β)) (k : α) (v : β)
    (h : assocLookup l k = some v) : (k, v) ∈ l := by
  induction l with
  | nil => simp [assocLookup] at h
  | cons kv rest ih =>
    simp only [assocLookup] at h
    split at h
    · rename_i heq
      cases h
      have hkv : kv = (k, kv.2) := by
        cases kv
        simp_all
      rw [← hkv]
      exact List.mem_cons_self _ _
    · exact List.mem_cons_of_mem _ (ih h)

/-! ### Claim C10: pingHopWithRetry always resolves -/

/-- C10.  For every address and timeout — that is, for every outcome of the
race between the probe promise and the timeout timer — `pingHopWithRetry`
resolves and never rejects: when the probe promise rejects, or when the
timeout timer wins the race (its rejection with "Ping timeout" is caught),
the function resolves to a result with `alive = false` and `time = null`,
carrying the error message, so no exception propagates to the caller. -/
theorem pingHopWithRetry_never_rejects (race : RaceOutcome) :
    (∃ r, pingHopWithRetry race = .ok r) ∧
    (race = .timeoutFired →
      pingHopWithRetry race
        = .ok { alive := false, time := none, error := some "Ping timeout" }) ∧
    (∀ msg, race = .probeRejected msg →
      pingHopWithRetry race = .ok { alive := false, time := none, error := some msg }) := by
  refine ⟨?_, ?_, ?_⟩
  · cases race <;> exact ⟨_, rfl⟩
  · rintro rfl
    rfl
  · rintro msg rfl
    rfl

/-- Witness for C10 at the two erroneous race outcomes. -/
theorem pingHopWithRetry_never_rejects_witness :
    pingHopWithRetry .timeoutFired
        = .ok { alive := false, time := none, error := some "Ping timeout" } ∧
    pingHopWithRetry (.probeRejected "probe exploded")
        = .ok { alive := false, time := none, error := some "probe exploded" } :=
  ⟨(pingHopWithRetry_never_rejects .timeoutFired).2.1 rfl,
   (pingHopWithRetry_never_rejects (.probeRejected "probe exploded")).2.2 _ rfl⟩

/-! ### Claim C5: calculateTrend classification -/

/-- Counterexample to C5 as stated.  On the history [10,10,10,10,10,11] the
second-half mean is 31/3, a change of only about +3.33 percent over the
first-half mean 10, so `calculateTrend` returns `stable`, not the claimed
`increasing`. -/
theorem calculateTrend_boundary_counterexample :
    calculateTrend [10, 10, 10, 10, 10, 11] = .stable ∧
    Trend.stable ≠ Trend.increasing := by
  constructor
  · norm_num [calculateTrend]
  · decide

/-- C5 as amended.  `calculateTrend` compares the mean of the first half of
the history with the mean of the second half under a plus-or-minus 5 percent
band: fewer than 3 entries yields insufficient data, a relative change above
+5 percent yields increasing, below -5 percent decreasing, and anything in
the band stable; in particular [10,10,10,10,10,11] (about +3.33 percent, not
+10) and [10,10,10,10,10,10.2] both yield stable. -/
theorem calculateTrend_amended (data : List ℚ) (change : ℚ) (h3 : 3 ≤ data.length)
    (hch : change
      = (((data.drop (data.length / 2)).sum / ((data.drop (data.length / 2)).length : ℚ)
          - (data.take (data.length / 2)).sum / ((data.take (data.length / 2)).length : ℚ))
         / ((data.take (data.length / 2)).sum / ((data.take (data.length / 2)).length : ℚ)))
        * 100) :
    (∀ short : List ℚ, short.length < 3 → calculateTrend short = .insufficientData) ∧
    (5 < change → calculateTrend data = .increasing) ∧
    (change < -5 → calculateTrend data = .decreasing) ∧
    (-5 ≤ change → change ≤ 5 → calculateTrend data = .stable) ∧
    calculateTrend [10, 10, 10, 10, 10, 11] = .stable ∧
    calculateTrend [10, 10, 10, 10, 10, 51 / 5] = .stable := by
  have hbody : calculateTrend data
      = (if change > 5 then .increasing else if change < -5 then .decreasing else .stable) := by
    rw [calculateTrend, if_neg (by omega)]
    rw [hch]
  refine ⟨?_, ?_, ?_, ?_, ?_, ?_⟩
  · intro short hshort
    rw [calculateTrend, if_pos hshort]
  · intro h
    rw [hbody, if_pos h]
  · intro h
    rw [hbody, if_neg (by linarith), if_pos h]
  · intro h1 h2
    rw [hbody, if_neg (by linarith), if_neg (by linarith)]
  · norm_num [calculateTrend]
  · norm_num [calculateTrend]

/-- Witness for C5 amended: on [10,10,10,10,10,12] the change is +20/3
percent, above the band, and the trend is increasing. -/
theorem calculateTrend_amended_witness :
    (3 ≤ ([10, 10, 10, 10, 10, 12] : List ℚ).length) ∧
    calculateTrend [10, 10, 10, 10, 10, 12] = .increasing := by
  have hch : (20 / 3 : ℚ)
      = (((([10, 10, 10, 10, 10, 12] : List ℚ).drop (([10, 10, 10, 10, 10, 12] : List ℚ).length / 2)).sum
            / ((([10, 10, 10, 10, 10, 12] : List ℚ).drop (([10, 10, 10, 10, 10, 12] : List ℚ).length / 2)).length : ℚ)
          - (([10, 10, 10, 10, 10, 12] : List ℚ).take (([10, 10, 10, 10, 10, 12] : List ℚ).length / 2)).sum
            / ((([10, 10, 10, 10, 10, 12] : List ℚ).take (([10, 10, 10, 10, 10, 12] : List ℚ).length / 2)).length : ℚ))
         / ((([10, 10, 10, 10, 10, 12] : List ℚ).take (([10, 10, 10, 10, 10, 12] : List ℚ).length / 2)).sum
            / ((([10, 10, 10, 10, 10, 12] : List ℚ).take (([10, 10, 10, 10, 10, 12] : List ℚ).length / 2)).length : ℚ)))
        * 100 := by
    norm_num
  exact ⟨by norm_num,
    (calculateTrend_amended [10, 10, 10, 10, 10, 12] (20 / 3) (by norm_num) hch).2.1
      (by norm_num)⟩

/-! ### Claim C4: getHopPriority bands and the skip demotion -/

/-- Counterexample to C4 as stated.  `fastLossyHop` (4ms latency, 100 percent
packet loss) is recommended for skip by `analyzeSlowHop`, yet
`getHopPriority` returns 1 — the best band priority, not the lowest rank —
because the band checks run before the skip-demotion check; `slowSkippedHop`
shows the demoted rank 999 that the claim expects is actually in use for
hops at 50ms or above. -/
theorem getHopPriority_skip_counterexample :
    (analyzeSlowHop fastLossyHop).shouldSkip = true ∧
    getHopPriority fastLossyHop = 1 ∧
    getHopPriority slowSkippedHop = 999 ∧
    getHopPriority fastLossyHop < getHopPriority slowSkippedHop := by
  refine ⟨?_, ?_, ?_, ?_⟩ <;>
    norm_num [analyzeSlowHop, getHopPriority, fastLossyHop, slowSkippedHop, qTruthy,
      packetLossPositive]

/-- C4 as amended.  `getHopPriority` ranks by probe latency (`avgLatency`
defaulted to 0): below 5ms rank 1, below 10ms rank 2, below 20ms rank 3,
below 50ms rank 4; only at 50ms or above does a skip recommendation demote
the hop to the lowest rank 999, otherwise the rank is 5.  A skip-recommended
hop inside one of the sub-50ms bands keeps its band rank. -/
theorem getHopPriority_amended (hop : Hop) (pl : ℚ) (hpl : hop.avgLatency.getD 0 = pl) :
    (pl < 5 → getHopPriority hop = 1) ∧
    (5 ≤ pl → pl < 10 → getHopPriority hop = 2) ∧
    (10 ≤ pl → pl < 20 → getHopPriority hop = 3) ∧
    (20 ≤ pl → pl < 50 → getHopPriority hop = 4) ∧
    (50 ≤ pl → (analyzeSlowHop hop).shouldSkip = true → getHopPriority hop = 999) ∧
    (50 ≤ pl → (analyzeSlowHop hop).shouldSkip = false → getHopPriority hop = 5) := by
  subst hpl
  refine ⟨?_, ?_, ?_, ?_, ?_, ?_⟩ <;> intros <;>
    simp only [getHopPriority] <;> split_ifs <;> simp_all <;> linarith

/-- Witness for C4 amended at `fastLossyHop` (band 1) and `slowSkippedHop`
(demoted to 999). -/
theorem getHopPriority_amended_witness :
    ((4 : ℚ) < 5 ∧ getHopPriority fastLossyHop = 1) ∧
    ((50 : ℚ) ≤ 200 ∧ (analyzeSlowHop slowSkippedHop).shouldSkip = true ∧
      getHopPriority slowSkippedHop = 999) := by
  have h1 := (getHopPriority_amended fastLossyHop 4 (by norm_num [fastLossyHop])).1
  have h2 := (getHopPriority_amended slowSkippedHop 200 (by norm_num [slowSkippedHop])).2.2.2.2.1
  have hskip : (analyzeSlowHop slowSkippedHop).shouldSkip = true := by
    norm_num [analyzeSlowHop, slowSkippedHop, qTruthy, packetLossPositive]
  exact ⟨⟨by norm_num, h1 (by norm_num)⟩, ⟨by norm_num, hskip, h2 (by norm_num) hskip⟩⟩

/-! ### Claim C9: run counter visible through the registry -/

/-- Evidence for C9 being a code bug.  After a session starts and two ticks
run, the loop closure's run counter is 2 (and the `onComplete` events carry
run numbers 1 and 2), but `getActiveSessions` still reports `runCount = 0`:
the registry object holds the primitive value of `runCount` copied at
registration, and no tick ever writes that field. -/
theorem getActiveSessions_runCount_stale :
    ((getActiveSessions
        (runTicks (startContinuousSession ⟨[], []⟩ "s1" "example.com" 0) "s1" [.ok, .ok])
        5000).map fun info => (info.sessionId, info.runCount)) = [("s1", 0)] ∧
    (assocLookup
        (runTicks (startContinuousSession ⟨[], []⟩ "s1" "example.com" 0) "s1" [.ok, .ok]).loops
        "s1").map (fun l => l.runCount) = some 2 ∧
    (runTick (startContinuousSession ⟨[], []⟩ "s1" "example.com" 0) "s1" .ok false).2.1
      = some (.runComplete 1) := by
  refine ⟨?_, ?_, ?_⟩ <;> rfl

/-! ### Claim C8: a failed tick reports run_error and keeps the session -/

/-- C8.  When a tick's discovery run fails for a registered, running session,
`onComplete` receives a `run_error` event carrying the incremented run number
and the error message, the registry is untouched (the session is still listed
by `getActiveSessions`), the loop stays running, and — the session not having
been stopped during the run — the next tick is scheduled. -/
theorem runTick_eq_of_running (st : ManagerState) (sid : String) (loop : LoopState)
    (o : RunOutcome)
    (hl : assocLookup st.loops sid = some loop) (hrun : loop.isRunning = true) :
    runTick st sid o false
      = ({ st with loops := st.loops.map fun kv =>
            if kv.1 = sid then
              (kv.1, { loop with runCount := loop.runCount + 1, isRunning := true })
            else kv },
         some (match o with
               | .ok => CompleteEvent.runComplete (loop.runCount + 1)
               | .failed msg => CompleteEvent.runError (loop.runCount + 1) msg),
         true) := by
  simp [runTick, hl, hrun]

theorem runTick_failure_resilient (st : ManagerState) (sid : String) (loop : LoopState)
    (entry : SessionEntry) (msg : String)
    (hl : assocLookup st.loops sid = some loop) (hrun : loop.isRunning = true)
    (hreg : assocLookup st.registry sid = some entry) :
    (runTick st sid (.failed msg) false).2.1 = some (.runError (loop.runCount + 1) msg) ∧
    (runTick st sid (.failed msg) false).1.registry = st.registry ∧
    (∃ info ∈ getActiveSessions (runTick st sid (.failed msg) false).1 0,
      info.sessionId = sid) ∧
    (runTick st sid (.failed msg) false).2.2 = true ∧
    (assocLookup (runTick st sid (.failed msg) false).1.loops sid).map (fun l => l.isRunning)
      = some true := by
  rw [runTick_eq_of_running st sid loop (.failed msg) hl hrun]
  refine ⟨rfl, rfl, ?_, rfl, ?_⟩
  · exact ⟨{ sessionId := sid, target := entry.target, runCount := entry.runCount,
               startTime := entry.startTime, duration := 0 - entry.startTime,
               isRunning := entry.isRunning },
      List.mem_map_of_mem _ (assocLookup_mem _ _ _ hreg), rfl⟩
  · rw [assocLookup_map_update_const, hl]
    rfl

/-- Witness for C8: a fresh session whose first tick fails with
"connect ENETUNREACH" still reports the error, stays registered, and
schedules tick 2. -/
theorem runTick_failure_resilient_witness :
    (assocLookup (startContinuousSession ⟨[], []⟩ "s1" "203.0.113.9" 0).loops "s1"
      = some { isRunning := true, runCount := 0, discoveryInFlight := false }) ∧
    ((runTick (startContinuousSession ⟨[], []⟩ "s1" "203.0.113.9" 0) "s1"
        (.failed "connect ENETUNREACH") false).2.1
      = some (.runError 1 "connect ENETUNREACH")) ∧
    ((runTick (startContinuousSession ⟨[], []⟩ "s1" "203.0.113.9" 0) "s1"
        (.failed "connect ENETUNREACH") false).2.2 = true) := by
  have h := runTick_failure_resilient (startContinuousSession ⟨[], []⟩ "s1" "203.0.113.9" 0)
    "s1" { isRunning := true, runCount := 0, discoveryInFlight := false }
    { target := "203.0.113.9", isRunning := true, runCount := 0, startTime := 0 }
    "connect ENETUNREACH" rfl rfl rfl
  exact ⟨rfl, h.1, h.2.2.2.1⟩

/-! ### Claim C7: stopContinuousSession -/

/-- Counterexample to C7 as stated.  Stopping a session whose discovery run
is in flight flips the closure's `isRunning` flag and removes the registry
entry, but the in-flight discovery is still in flight afterwards: the stop
path contains no call that reaches the executor or a process handle, so no
termination happens — the claim's "terminates the session's in-flight
discovery process (not merely dropping the flag)" fails. -/
theorem stopContinuousSession_no_terminate_counterexample :
    ((assocLookup (stopContinuousSession c7State "s1").1.loops "s1").map
        (fun l => l.discoveryInFlight) = some true) ∧
    ((assocLookup (stopContinuousSession c7State "s1").1.loops "s1").map
        (fun l => l.isRunning) = some false) ∧
    (stopContinuousSession c7State "s1").2.success = true ∧
    assocLookup (stopContinuousSession c7State "s1").1.registry "s1" = none := by
  refine ⟨?_, ?_, ?_, ?_⟩ <;> rfl

/-- C7 as amended.  `stopContinuousSession` always returns a success result
(also for unknown or already-stopped ids — it is idempotent), removes the
session from the registry, and marks a registered session's loop not-running;
but it never terminates an in-flight discovery run: the discovery state of
every loop is exactly what it was before the call, since stopping only drops
the flag (which prevents the next tick from being scheduled) and deletes the
registry entry. -/
theorem sessionStopClosure_lookup_self (loops : List (String × LoopState)) (sid : String) :
    assocLookup (sessionStopClosure loops sid) sid
      = (assocLookup loops sid).map (fun l => { l with isRunning := false }) := by
  induction loops with
  | nil => rfl
  | cons kv rest ih =>
    simp only [sessionStopClosure, List.map_cons] at ih ⊢
    by_cases hk : kv.1 = sid
    · simp [if_pos hk, assocLookup, hk]
    · simp [if_neg hk, assocLookup, hk, ih]

theorem sessionStopClosure_lookup_inflight (loops : List (String × LoopState))
    (sid k : String) :
    (assocLookup (sessionStopClosure loops sid) k).map (fun l => l.discoveryInFlight)
      = (assocLookup loops k).map (fun l => l.discoveryInFlight) := by
  induction loops with
  | nil => rfl
  | cons kv rest ih =>
    simp only [sessionStopClosure, List.map_cons] at ih ⊢
    by_cases hk : kv.1 = sid
    · by_cases hkk : kv.1 = k
      · have hks : k = sid := by rw [← hkk, hk]
        simp [if_pos hk, assocLookup, hkk, hks]
      · simp [if_pos hk, assocLookup, hkk, ih]
    · by_cases hkk : kv.1 = k
      · have hks : ¬k = sid := fun h => hk (hkk.trans h)
        simp [if_neg hk, assocLookup, hkk, hks]
      · simp [if_neg hk, assocLookup, hkk, ih]

theorem stop_registry_eq (st : ManagerState) (sid : String) :
    (stopContinuousSession st sid).1.registry
      = st.registry.filter fun kv => kv.1 ≠ sid := by
  unfold stopContinuousSession
  cases assocLookup st.registry sid <;> rfl

theorem stop_of_lookup_none (st : ManagerState) (sid : String)
    (h : assocLookup st.registry sid = none) :
    stopContinuousSession st sid
      = ({ st with registry := st.registry.filter fun kv => kv.1 ≠ sid },
         { success := true, message := "Session already stopped or not found" }) := by
  unfold stopContinuousSession
  rw [h]

theorem stopContinuousSession_amended (st : ManagerState) (sid : String) :
    (stopContinuousSession st sid).2.success = true ∧
    assocLookup (stopContinuousSession st sid).1.registry sid = none ∧
    (∀ loop entry, assocLookup st.loops sid = some loop →
      assocLookup st.registry sid = some entry →
      assocLookup (stopContinuousSession st sid).1.loops sid
        = some { loop with isRunning := false }) ∧
    (∀ sid2, (assocLookup (stopContinuousSession st sid).1.loops sid2).map
        (fun l => l.discoveryInFlight)
      = (assocLookup st.loops sid2).map (fun l => l.discoveryInFlight)) ∧
    (stopContinuousSession (stopContinuousSession st sid).1 sid).1
        = (stopContinuousSession st sid).1 ∧
    (stopContinuousSession (stopContinuousSession st sid).1 sid).2.success = true := by
  have hlook2 : assocLookup (stopContinuousSession st sid).1.registry sid = none := by
    rw [stop_registry_eq]
    exact assocLookup_filter_ne _ _
  have hfilt : (stopContinuousSession st sid).1.registry.filter (fun kv => kv.1 ≠ sid)
      = (stopContinuousSession st sid).1.registry := by
    rw [stop_registry_eq]
    simp [List.filter_filter]
  refine ⟨?_, hlook2, ?_, ?_, ?_, ?_⟩
  · unfold stopContinuousSession
    cases assocLookup st.registry sid <;> rfl
  · intro loop entry hloop hentry
    unfold stopContinuousSession
    rw [hentry]
    show assocLookup (sessionStopClosure st.loops sid) sid = _
    rw [sessionStopClosure_lookup_self, hloop]
    rfl
  · intro sid2
    unfold stopContinuousSession
    cases assocLookup st.registry sid
    · rfl
    · exact sessionStopClosure_lookup_inflight _ _ _
  · rw [stop_of_lookup_none _ _ hlook2, hfilt]
  · rw [stop_of_lookup_none _ _ hlook2]

/-- Witness for C7 amended at a registered session with discovery in flight,
stopped twice. -/
theorem stopContinuousSession_amended_witness :
    (assocLookup c7State.loops "s1" = some c7Loop) ∧
    (assocLookup c7State.registry "s1" = some c7Entry) ∧
    (assocLookup (stopContinuousSession c7State "s1").1.loops "s1"
      = some { c7Loop with isRunning := false }) ∧
    ((assocLookup (stopContinuousSession c7State "s1").1.loops "s1").map
        (fun l => l.discoveryInFlight)
      = (assocLookup c7State.loops "s1").map (fun l => l.discoveryInFlight)) ∧
    (stopContinuousSession (stopContinuousSession c7State "s1").1 "s1").2.success = true := by
  have h := stopContinuousSession_amended c7State "s1"
  exact ⟨rfl, rfl, h.2.2.1 c7Loop c7Entry rfl rfl, h.2.2.2.1 "s1", h.2.2.2.2.2⟩

/-! ### Claim C6: trace never rejects -/

/-- Counterexample to C6 as stated, in two ways.  First, a malformed hop
event makes `processHop` throw inside the update callback, whose catch calls
`reject(error)` on the promise returned by `trace`: the promise rejects
instead of resolving to a structured result.  Second, a discovery failure —
the executor resolving `{success: false, error: "Traceroute failed with exit
code 1"}` with no `complete` update delivered — settles nothing in `trace`
(its `.catch` fires only on rejection), so the promise stays pending forever
and never resolves to any structured result either. -/
theorem traceModel_rejects_counterexample :
    traceModel (.ok ()) [.hopUpdate (.malformedJson "not json")] .resolvedOk
      = .rejected "not json" ∧
    (∀ success error,
      traceModel (.ok ()) [.hopUpdate (.malformedJson "not json")] .resolvedOk
        ≠ .resolved success error) ∧
    traceModel (.ok ()) [.hopUpdate (.parsed 1 (some "192.0.2.7") (some 10))]
        (.resolvedFail "Traceroute failed with exit code 1")
      = .pending ∧
    (∀ success error,
      traceModel (.ok ()) [.hopUpdate (.parsed 1 (some "192.0.2.7") (some 10))]
          (.resolvedFail "Traceroute failed with exit code 1")
        ≠ .resolved success error) := by
  refine ⟨rfl, ?_, rfl, ?_⟩
  · intro success error h
    exact TraceOutcome.noConfusion h
  · intro success error h
    exact TraceOutcome.noConfusion h

theorem processUpdates_of_wellformed (events : List ExecUpdate)
    (hwf : ∀ e ∈ events, e.isMalformed = false) :
    processUpdates events
      = if events.any (fun e => e.isComplete) then some (.resolved true none)
        else none := by
  induction events with
  | nil => rfl
  | cons e rest ih =>
    cases e with
    | hopUpdate raw =>
      cases raw with
      | parsed h i r =>
        simp only [processUpdates, List.any_cons, ExecUpdate.isComplete, Bool.false_or]
        exact ih fun e he => hwf e (List.mem_cons_of_mem _ he)
      | malformedJson s =>
        have := hwf _ (List.mem_cons_self _ _)
        simp [ExecUpdate.isMalformed] at this
    | complete ip pid =>
      simp [processUpdates, List.any_cons, ExecUpdate.isComplete]

/-- C6 as amended.  With only well-formed hop events the promise returned by
`trace` never rejects, and its settlements are structured: a
config-validation or target-resolution failure resolves
`{success: false, error}`, a delivered `complete` update resolves
`{success: true}`, and a synchronous executor start failure — the only
executor promise rejection — is converted by the `.catch` into a resolved
`{success: false, error}`.  But a discovery failure that the executor
reports by resolving `{success: false, error}` (nonzero exit with zero hops,
the tracer error event, or the executor timeout) settles nothing when no
`complete` update was delivered: the promise returned by `trace` stays
pending forever; and a malformed hop event rejects it (see the
counterexample), so the original claim fails on both counts. -/
theorem traceModel_amended (v : Except String Unit) (events : List ExecUpdate)
    (finish : ExecFinish)
    (hwf : ∀ e ∈ events, e.isMalformed = false) :
    (∀ msg, traceModel v events finish ≠ .rejected msg) ∧
    (∀ msg, v = .error msg → traceModel v events finish = .resolved false (some msg)) ∧
    (v = .ok () → events.any (fun e => e.isComplete) = true →
      traceModel v events finish = .resolved true none) ∧
    (∀ msg, v = .ok () → events.any (fun e => e.isComplete) = false →
      finish = .rejected msg →
      traceModel v events finish = .resolved false (some msg)) ∧
    (∀ msg, v = .ok () → events.any (fun e => e.isComplete) = false →
      finish = .resolvedFail msg →
      traceModel v events finish = .pending) ∧
    (v = .ok () → events.any (fun e => e.isComplete) = false →
      finish = .resolvedOk →
      traceModel v events finish = .pending) := by
  have hproc := processUpdates_of_wellformed events hwf
  refine ⟨?_, ?_, ?_, ?_, ?_, ?_⟩
  · intro msg h
    cases v with
    | error e => exact TraceOutcome.noConfusion h
    | ok u =>
      rw [traceModel.eq_def] at h
      simp only at h
      rw [hproc] at h
      by_cases hc : events.any (fun e => e.isComplete) = true
      · rw [if_pos hc] at h
        exact TraceOutcome.noConfusion h
      · rw [if_neg hc] at h
        cases finish with
        | resolvedOk => exact TraceOutcome.noConfusion h
        | resolvedFail m => exact TraceOutcome.noConfusion h
        | rejected m => exact TraceOutcome.noConfusion h
  · rintro msg rfl
    rfl
  · rintro rfl hc
    rw [traceModel.eq_def]
    simp only
    rw [hproc, if_pos hc]
  · rintro msg rfl hc rfl
    rw [traceModel.eq_def]
    simp only
    rw [hproc, if_neg (by simp [hc])]
  · rintro msg rfl hc rfl
    rw [traceModel.eq_def]
    simp only
    rw [hproc, if_neg (by simp [hc])]
  · rintro rfl hc rfl
    rw [traceModel.eq_def]
    simp only
    rw [hproc, if_neg (by simp [hc])]

/-- Witness for C6 amended: one well-formed hop event and no completion; a
synchronous executor start failure resolves a structured failure result,
while a discovery failure that the executor resolves leaves the promise
pending (and still not rejected). -/
theorem traceModel_amended_witness :
    ((∀ e ∈ ([.hopUpdate (.parsed 1 (some "192.0.2.7") (some 10))] : List ExecUpdate),
        e.isMalformed = false) ∧
      traceModel (.ok ()) [.hopUpdate (.parsed 1 (some "192.0.2.7") (some 10))]
          (.rejected "spawn traceroute ENOENT")
        = .resolved false (some "spawn traceroute ENOENT")) ∧
    traceModel (.ok ()) [.hopUpdate (.parsed 1 (some "192.0.2.7") (some 10))]
        (.resolvedFail "Traceroute failed with exit code 1")
      = .pending ∧
    (∀ msg, traceModel (.ok ()) [.hopUpdate (.parsed 1 (some "192.0.2.7") (some 10))]
        (.resolvedFail "Traceroute failed with exit code 1") ≠ .rejected msg) := by
  have hwf : ∀ e ∈ ([.hopUpdate (.parsed 1 (some "192.0.2.7") (some 10))] : List ExecUpdate),
      ExecUpdate.isMalformed e = false := by
    intro e he
    simp only [List.mem_singleton] at he
    rw [he]
    rfl
  have h1 := traceModel_amended (.ok ())
    [.hopUpdate (.parsed 1 (some "192.0.2.7") (some 10))]
    (.rejected "spawn traceroute ENOENT") hwf
  have h2 := traceModel_amended (.ok ())
    [.hopUpdate (.parsed 1 (some "192.0.2.7") (some 10))]
    (.resolvedFail "Traceroute failed with exit code 1") hwf
  exact ⟨⟨hwf, h1.2.2.2.1 _ rfl rfl rfl⟩, h2.2.2.2.2.1 _ rfl rfl rfl, h2.1⟩

/-! ### Claim C1: probe batch settle-all semantics -/

theorem getLast?_push_evict {α : Type} (l : List α) (e : α) :
    (if (l ++ [e]).length > 20 then (l ++ [e]).tail else l ++ [e]).getLast? = some e := by
  split
  · rename_i h
    cases l with
    | nil => simp at h
    | cons a as => exact List.getLast?_concat _
  · exact List.getLast?_concat _

theorem addRecentPing_isReachable (hop : Hop) (r : PingResult) (t : ℚ)
    (p : Option Nat) (n : Nat) :
    (addRecentPing hop r t p n).isReachable = hop.isReachable := by
  simp only [addRecentPing, apply_ite (fun h : Hop => h.isReachable)]
  simp

theorem addTimeoutPing_isReachable (hop : Hop) (t : ℚ) (p : Option Nat) (n : Nat) :
    (addTimeoutPing hop t p n).isReachable = hop.isReachable := by
  simp only [addTimeoutPing, apply_ite (fun h : Hop => h.isReachable)]
  simp

theorem addRecentPing_pingHistory (hop : Hop) (r : PingResult) (t : ℚ)
    (p : Option Nat) (n : Nat) :
    ∃ e : PingEntry, e.isTimeout = (!r.alive || r.time.isNone) ∧ e.isReachable = r.alive ∧
      (addRecentPing hop r t p n).pingHistory
        = if (hop.pingHistory ++ [e]).length > 20 then (hop.pingHistory ++ [e]).tail
          else hop.pingHistory ++ [e] := by
  refine ⟨{ pingNumber := jsOrN p (jsOrN hop.pingCount 1), timestamp := n,
              latency := if qTruthy r.time then r.time else none,
              isReachable := r.alive, timeout := t,
              responseTime := if qTruthy r.time then r.time else none,
              isTimeout := !r.alive || r.time.isNone,
              isLongTimeout := (!r.alive || r.time.isNone) && decide (t ≥ 1000),
              isSlowPing := r.alive && qTruthy r.time && decide (r.time.getD 0 > 100) },
    rfl, rfl, ?_⟩
  simp only [addRecentPing, apply_ite (fun h : Hop => h.pingHistory)]

theorem addTimeoutPing_pingHistory (hop : Hop) (t : ℚ) (p : Option Nat) (n : Nat) :
    ∃ e : PingEntry, e.isTimeout = true ∧ e.isReachable = false ∧
      (addTimeoutPing hop t p n).pingHistory
        = if (hop.pingHistory ++ [e]).length > 20 then (hop.pingHistory ++ [e]).tail
          else hop.pingHistory ++ [e] := by
  refine ⟨{ pingNumber := jsOrN p (jsOrN hop.pingCount 1), timestamp := n,
              latency := none, isReachable := false, timeout := t,
              responseTime := none, isTimeout := true,
              isLongTimeout := decide (t ≥ 1000), isSlowPing := false },
    rfl, rfl, ?_⟩
  simp only [addTimeoutPing, apply_ite (fun h : Hop => h.pingHistory)]

/-- C1.  The probe batch settles with one outcome per hop: the batch over any
surrounding hops decomposes elementwise, so each hop's enrichment is a
function of that hop and its own probe outcome only — a failing or timed-out
probe for one hop records that hop unreachable and appends a timeout entry to
its ping-history, and neither prevents nor aborts the probing of the other
hops in the batch (settle-all, not fail-fast). -/
theorem pingBatch_settle_all (pre post : List (Hop × ProbeOutcome)) (hop : Hop)
    (o : ProbeOutcome) (now : Nat) (hfail : o.failing = true) :
    pingBatch (pre ++ (hop, o) :: post) now
      = pingBatch pre now ++ applyProbeOutcome hop o now :: pingBatch post now ∧
    (applyProbeOutcome hop o now).isReachable = false ∧
    (∃ e, (applyProbeOutcome hop o now).pingHistory.getLast? = some e ∧
      e.isTimeout = true ∧ e.isReachable = false) := by
  refine ⟨by simp [pingBatch], ?_, ?_⟩
  · cases o with
    | settled r =>
      have halive : r.alive = false := by
        simpa [ProbeOutcome.failing] using hfail
      simp only [applyProbeOutcome]
      rw [addRecentPing_isReachable]
      exact halive
    | thrown msg =>
      simp only [applyProbeOutcome]
      rw [addTimeoutPing_isReachable]
  · cases o with
    | settled r =>
      have halive : r.alive = false := by
        simpa [ProbeOutcome.failing] using hfail
      simp only [applyProbeOutcome]
      obtain ⟨e, he1, he2, he3⟩ := addRecentPing_pingHistory
        { hop with
          hasPingResults := true,
          avgLatency := if r.alive && qTruthy r.time then r.time else none,
          isReachable := r.alive,
          packetLoss := some (if r.alive then 0 else 100),
          pingCount := some 1,
          successfulPings := some (if r.alive then 1 else 0) } r 1000 (some 1) now
      refine ⟨e, ?_, ?_, ?_⟩
      · rw [he3]
        exact getLast?_push_evict _ _
      · rw [he1, halive]
        rfl
      · rw [he2, halive]
    | thrown msg =>
      simp only [applyProbeOutcome]
      obtain ⟨e, he1, he2, he3⟩ := addTimeoutPing_pingHistory
        { hop with
          isReachable := false, avgLatency := none,
          pingCount := some 0, successfulPings := some 0 } 1000 (some 1) now
      refine ⟨e, ?_, he1, he2⟩
      rw [he3]
      exact getLast?_push_evict _ _

/-- Witness for C1: a one-hop batch whose probe reported the hop dead. -/
theorem pingBatch_settle_all_witness :
    (ProbeOutcome.failing
        (.settled { alive := false, time := none, error := some "Ping timeout" }) = true) ∧
    (pingBatch
        ([] ++ (exHop 1 10, .settled { alive := false, time := none, error := some "Ping timeout" })
          :: [])
        7
      = pingBatch [] 7 ++
        applyProbeOutcome (exHop 1 10)
            (.settled { alive := false, time := none, error := some "Ping timeout" }) 7
          :: pingBatch [] 7 ∧
    (applyProbeOutcome (exHop 1 10)
        (.settled { alive := false, time := none, error := some "Ping timeout" }) 7).isReachable
      = false ∧
    (∃ e, (applyProbeOutcome (exHop 1 10)
          (.settled { alive := false, time := none, error := some "Ping timeout" })
          7).pingHistory.getLast? = some e ∧
      e.isTimeout = true ∧ e.isReachable = false)) :=
  ⟨rfl, pingBatch_settle_all [] [] (exHop 1 10)
    (.settled { alive := false, time := none, error := some "Ping timeout" }) 7 rfl⟩

/-! ### Claim C2: bounded FIFO hop histories -/

theorem pushHistories_eq (s : StoredHop) (o : Observation) :
    pushHistories s o
      = { base := s.base, history := historyStep s.history o,
          pingHistory := pingHistStep s.pingHistory o } := by
  obtain ⟨b, h, p⟩ := s
  simp only [pushHistories, historyStep, pingHistStep]
  split_ifs <;> rfl

theorem updateHopHistory_nil (o : Observation) :
    updateHopHistory o []
      = [(o.hopKey, pushHistories { base := o, history := [], pingHistory := [] } o)] := by
  simp [updateHopHistory, assocLookup]

theorem updateHopHistory_singleton (o : Observation) (k : Nat × String) (s : StoredHop)
    (hk : o.hopKey = k) :
    updateHopHistory o [(k, s)] = [(k, pushHistories s o)] := by
  subst hk
  simp [updateHopHistory, assocLookup]

theorem applyObservations_cons (m : HopMap) (o : Observation) (rest : List Observation) :
    applyObservations m (o :: rest) = applyObservations (updateHopHistory o m) rest := rfl

theorem applyObservations_singleton (k : Nat × String) (s : StoredHop)
    (obss : List Observation) (hk : ∀ o ∈ obss, o.hopKey = k) :
    applyObservations [(k, s)] obss
      = [(k, { base := s.base,
               history := obss.foldl historyStep s.history,
               pingHistory := obss.foldl pingHistStep s.pingHistory })] := by
  induction obss generalizing s with
  | nil => rfl
  | cons o rest ih =>
    rw [applyObservations_cons,
      updateHopHistory_singleton o k s (hk o (List.mem_cons_self o rest)),
      ih (pushHistories s o) (fun x hx => hk x (List.mem_cons_of_mem _ hx)),
      pushHistories_eq]
    rfl

theorem foldl_historyStep_window (rest pre : List Observation) :
    rest.foldl historyStep (window 10 (pre.map Observation.runEntry))
      = window 10 ((pre ++ rest).map Observation.runEntry) := by
  induction rest generalizing pre with
  | nil => simp
  | cons o rest ih =>
    have hstep : historyStep (window 10 (pre.map Observation.runEntry)) o
        = window 10 ((pre ++ [o]).map Observation.runEntry) := by
      simp only [historyStep, List.map_append, List.map_cons, List.map_nil]
      exact window_push 10 (by omega) _ _
    rw [List.foldl_cons, hstep, ih (pre ++ [o]), List.append_assoc]
    rfl

theorem foldl_pingHistStep_window (rest pre : List Observation) :
    rest.foldl pingHistStep (window 20 (pingEntriesOf pre))
      = window 20 (pingEntriesOf (pre ++ rest)) := by
  induction rest generalizing pre with
  | nil => simp [pingEntriesOf]
  | cons o rest ih =>
    have hstep : pingHistStep (window 20 (pingEntriesOf pre)) o
        = window 20 (pingEntriesOf (pre ++ [o])) := by
      by_cases ht : qTruthy o.avgLatency = true
      · have hfe : pingEntriesOf (pre ++ [o]) = pingEntriesOf pre ++ [o.pingEntry] := by
          simp [pingEntriesOf, List.filter_append, ht]
        rw [hfe]
        simp only [pingHistStep]
        rw [if_pos ht]
        exact window_push 20 (by omega) _ _
      · have hfe : pingEntriesOf (pre ++ [o]) = pingEntriesOf pre := by
          simp [pingEntriesOf, List.filter_append, ht]
        rw [hfe]
        simp only [pingHistStep]
        rw [if_neg ht,
          if_neg (by have := window_length 20 (pingEntriesOf pre); omega)]
    rw [List.foldl_cons, hstep, ih (pre ++ [o]), List.append_assoc]
    rfl

/-- C2.  For every nonempty sequence of observations carrying the same hop
key, the session hop map after `updateHopHistory` has exactly one record for
that key; its run-history is the sliding window of the last at-most-10
observations in order (so its length is `min N 10` and the oldest entry is
evicted first), and its ping-history is the sliding window of the last
at-most-20 truthy-latency observations, never exceeding 20. -/
theorem updateHopHistory_bounded (obss : List Observation) (k : Nat × String)
    (hne : obss ≠ []) (hk : ∀ o ∈ obss, o.hopKey = k) :
    ∃ s : StoredHop,
      applyObservations [] obss = [(k, s)] ∧
      s.history = window 10 (obss.map Observation.runEntry) ∧
      s.history.length = min obss.length 10 ∧
      s.pingHistory = window 20 (pingEntriesOf obss) ∧
      s.pingHistory.length ≤ 20 := by
  obtain ⟨o₀, rest, rfl⟩ := List.exists_cons_of_ne_nil hne
  have hk0 : o₀.hopKey = k := hk o₀ (List.mem_cons_self _ _)
  have hkr : ∀ o ∈ rest, o.hopKey = k := fun o ho => hk o (List.mem_cons_of_mem _ ho)
  rw [applyObservations_cons, updateHopHistory_nil, hk0,
    applyObservations_singleton k _ rest hkr, pushHistories_eq]
  have h0 : historyStep ([] : List HistRunEntry) o₀
      = window 10 ([o₀].map Observation.runEntry) := by
    simp [historyStep, window]
  have p0 : pingHistStep ([] : List HistPingEntry) o₀
      = window 20 (pingEntriesOf [o₀]) := by
    by_cases ht : qTruthy o₀.avgLatency = true
    · simp [pingHistStep, ht, pingEntriesOf, window]
    · simp [pingHistStep, ht, pingEntriesOf, window, List.filter_cons]
  have he : rest.foldl historyStep (historyStep [] o₀)
      = window 10 ((o₀ :: rest).map Observation.runEntry) := by
    rw [h0, foldl_historyStep_window rest [o₀]]
    rfl
  have hp : rest.foldl pingHistStep (pingHistStep [] o₀)
      = window 20 (pingEntriesOf (o₀ :: rest)) := by
    rw [p0, foldl_pingHistStep_window rest [o₀]]
    rfl
  refine ⟨_, rfl, he, ?_, hp, ?_⟩
  · show (rest.foldl historyStep (historyStep [] o₀)).length = _
    rw [he, window_length, List.length_map]
  · show (rest.foldl pingHistStep (pingHistStep [] o₀)).length ≤ 20
    rw [hp, window_length]
    omega

/-- Witness for C2: two observations of hop 3 (one with latency 5, one with
no usable latency) merge into one record with a 2-entry run-history and a
1-entry ping-history. -/
theorem updateHopHistory_bounded_witness :
    (([obsA, obsB] : List Observation) ≠ []) ∧
    (∀ o ∈ ([obsA, obsB] : List Observation), o.hopKey = (3, "10.0.0.3")) ∧
    ∃ s : StoredHop,
      applyObservations [] [obsA, obsB] = [((3, "10.0.0.3"), s)] ∧
      s.history = window 10 (([obsA, obsB] : List Observation).map Observation.runEntry) ∧
      s.history.length = min ([obsA, obsB] : List Observation).length 10 ∧
      s.pingHistory = window 20 (pingEntriesOf [obsA, obsB]) ∧
      s.pingHistory.length ≤ 20 := by
  have hne : ([obsA, obsB] : List Observation) ≠ [] := by
    intro h
    exact List.noConfusion h
  have hk : ∀ o ∈ ([obsA, obsB] : List Observation), o.hopKey = (3, "10.0.0.3") := by
    intro o ho
    rcases List.mem_pair.mp ho with rfl | rfl <;> rfl
  exact ⟨hne, hk, updateHopHistory_bounded [obsA, obsB] (3, "10.0.0.3") hne hk⟩

/-! ### Claim C3: skip/limit partition of the probe set -/

theorem partitionHopsForPing_eq_limit (validHops : List Hop) (config : TraceConfig)
    (m : Nat) (hm : config.maxHopsToProcess = some m) (hm0 : m ≠ 0)
    (hgt : ((analyzeValidHops validHops config).filter fun i => !i.shouldSkip).length > m) :
    partitionHopsForPing validHops config
      = { finalHopsToPing := (List.insertionSort priorityLE
            ((analyzeValidHops validHops config).filter fun i => !i.shouldSkip)).take m,
          skippedHops := (analyzeValidHops validHops config).filter fun i => i.shouldSkip,
          limitedHops := (List.insertionSort priorityLE
            ((analyzeValidHops validHops config).filter fun i => !i.shouldSkip)).drop m } := by
  simp only [partitionHopsForPing, hm]
  rw [if_pos ⟨hm0, hgt⟩]

/-- C3.  With `pingHops` on, the valid hops are partitioned into three
disjoint classes: the skipped class holds exactly the hops `shouldSkipHop`
marks skip-recommended, and when the keep-eligible hops exceed a (truthy)
`maxHopsToProcess`, exactly that many best hops by ascending priority are
probed while the remainder is classified limited, not skipped.  In the
claim's concrete scenarios, with `skipSlowHops` and threshold 50 the hops of
latency 60 and 200 are skipped and the latency-10 hop is kept, and with
`maxHopsToProcess = 1` over three keep-eligible hops of priorities 1, 2, 3
only the priority-1 hop is probed and the other two are limited. -/
theorem trace_skip_limit_partition (validHops : List Hop) (config : TraceConfig)
    (m : Nat) (hm : config.maxHopsToProcess = some m) (hm0 : m ≠ 0)
    (hgt : ((analyzeValidHops validHops config).filter fun i => !i.shouldSkip).length > m) :
    (∀ item ∈ (partitionHopsForPing validHops config).skippedHops,
      item.shouldSkip = true) ∧
    (∀ item ∈ (partitionHopsForPing validHops config).finalHopsToPing,
      item.shouldSkip = false) ∧
    (∀ item ∈ (partitionHopsForPing validHops config).limitedHops,
      item.shouldSkip = false) ∧
    ((partitionHopsForPing validHops config).finalHopsToPing
        ++ (partitionHopsForPing validHops config).limitedHops).Perm
      ((analyzeValidHops validHops config).filter fun i => !i.shouldSkip) ∧
    (partitionHopsForPing validHops config).finalHopsToPing.length = m ∧
    (∀ a ∈ (partitionHopsForPing validHops config).finalHopsToPing,
      ∀ b ∈ (partitionHopsForPing validHops config).limitedHops,
        a.priority ≤ b.priority) ∧
    ((partitionHopsForPing [exHop 1 10, exHop 2 60, exHop 3 200] skipCfg).skippedHops.map
      (fun i => i.hop.hop) = [2, 3]) ∧
    ((partitionHopsForPing [exHop 1 10, exHop 2 60, exHop 3 200] skipCfg).finalHopsToPing.map
      (fun i => i.hop.hop) = [1]) ∧
    ((partitionHopsForPing [exHop 1 10, exHop 2 60, exHop 3 200] skipCfg).limitedHops = []) ∧
    ((partitionHopsForPing [exHop 1 15, exHop 2 3, exHop 3 8] limitCfg).finalHopsToPing.map
      (fun i => i.hop.hop) = [2]) ∧
    ((partitionHopsForPing [exHop 1 15, exHop 2 3, exHop 3 8] limitCfg).limitedHops.map
      (fun i => i.hop.hop) = [3, 1]) ∧
    ((partitionHopsForPing [exHop 1 15, exHop 2 3, exHop 3 8] limitCfg).skippedHops = []) := by
  rw [partitionHopsForPing_eq_limit validHops config m hm hm0 hgt]
  refine ⟨?_, ?_, ?_, ?_, ?_, ?_, ?_, ?_, ?_, ?_, ?_, ?_⟩
  · intro item hmem
    exact (List.mem_filter.mp hmem).2
  · intro item hmem
    have h1 : item ∈ (analyzeValidHops validHops config).filter fun i => !i.shouldSkip :=
      (List.perm_insertionSort priorityLE _).mem_iff.mp (List.mem_of_mem_take hmem)
    have h2 := (List.mem_filter.mp h1).2
    simpa using h2
  · intro item hmem
    have h1 : item ∈ (analyzeValidHops validHops config).filter fun i => !i.shouldSkip :=
      (List.perm_insertionSort priorityLE _).mem_iff.mp (List.mem_of_mem_drop hmem)
    have h2 := (List.mem_filter.mp h1).2
    simpa using h2
  · show ((List.insertionSort priorityLE _).take m ++ (List.insertionSort priorityLE _).drop m).Perm _
    rw [List.take_append_drop]
    exact List.perm_insertionSort _ _
  · show ((List.insertionSort priorityLE _).take m).length = m
    rw [List.length_take, List.length_insertionSort]
    omega
  · have hsorted := List.sorted_insertionSort priorityLE
      ((analyzeValidHops validHops config).filter fun i => !i.shouldSkip)
    rw [List.Sorted, ← List.take_append_drop m (List.insertionSort priorityLE
      ((analyzeValidHops validHops config).filter fun i => !i.shouldSkip))] at hsorted
    exact (List.pairwise_append.mp hsorted).2.2
  · norm_num [partitionHopsForPing, analyzeValidHops, shouldSkipHop, analyzeSlowHop,
      getHopPriority, qTruthy, jsOrQ, packetLossPositive, exHop, skipCfg]
  · norm_num [partitionHopsForPing, analyzeValidHops, shouldSkipHop, analyzeSlowHop,
      getHopPriority, qTruthy, jsOrQ, packetLossPositive, exHop, skipCfg]
  · norm_num [partitionHopsForPing, analyzeValidHops, shouldSkipHop, analyzeSlowHop,
      getHopPriority, qTruthy, jsOrQ, packetLossPositive, exHop, skipCfg]
  · norm_num [partitionHopsForPing, analyzeValidHops, shouldSkipHop, analyzeSlowHop,
      getHopPriority, qTruthy, jsOrQ, packetLossPositive, exHop, limitCfg,
      List.insertionSort, List.orderedInsert, priorityLE]
  · norm_num [partitionHopsForPing, analyzeValidHops, shouldSkipHop, analyzeSlowHop,
      getHopPriority, qTruthy, jsOrQ, packetLossPositive, exHop, limitCfg,
      List.insertionSort, List.orderedInsert, priorityLE]
  · norm_num [partitionHopsForPing, analyzeValidHops, shouldSkipHop, analyzeSlowHop,
      getHopPriority, qTruthy, jsOrQ, packetLossPositive, exHop, limitCfg]

/-- Witness for C3 at the limit scenario: three keep-eligible hops, limit 1,
and exactly one hop probed. -/
theorem trace_skip_limit_partition_witness :
    (((analyzeValidHops [exHop 1 15, exHop 2 3, exHop 3 8] limitCfg).filter
      fun i => !i.shouldSkip).length > 1) ∧
    (partitionHopsForPing [exHop 1 15, exHop 2 3, exHop 3 8] limitCfg).finalHopsToPing.length
      = 1 ∧
    (partitionHopsForPing [exHop 1 15, exHop 2 3, exHop 3 8] limitCfg).limitedHops.map
      (fun i => i.hop.hop) = [3, 1] := by
  have hgt : ((analyzeValidHops [exHop 1 15, exHop 2 3, exHop 3 8] limitCfg).filter
      fun i => !i.shouldSkip).length > 1 := by
    norm_num [analyzeValidHops, shouldSkipHop, analyzeSlowHop, getHopPriority, qTruthy,
      jsOrQ, packetLossPositive, exHop, limitCfg]
  have h := trace_skip_limit_partition [exHop 1 15, exHop 2 3, exHop 3 8] limitCfg 1
    rfl (by omega) hgt
  exact ⟨hgt, h.2.2.2.2.1, h.2.2.2.2.2.2.2.2.2.2.1⟩

end Noctool
